import Mathlib

/-!
Verification development for the multi-server MCP connection manager of this
repository.  The embedding covers:

* `src/lib/mcp/types.ts` — the configuration and capability data model;
* `src/unnamed/part_001` (the `MCPClientManager` singleton) — the connection
  registry, the connect/disconnect lifecycle, the capability facade
  (`listTools`, `listPrompts`, `listResources`, `callTool`, `getPrompt`,
  `readResource`) and `getAllTools`;
* `src/app/api/chat/route.ts` — tool aggregation into namespaced function
  declarations, `executeMCPToolCall`, and the bounded function-calling loop
  of `POST`;
* `src/lib/mcp/context.tsx` — `exportConfig` / `importConfig`.

External effects (the MCP SDK client, transports, the generative-model API)
are modelled by an explicit deterministic environment `Env`: each SDK call
site in the source corresponds to one `Env` field giving that call's outcome.
Sessions are identified by a counter; the set of live (not successfully
closed) sessions is tracked in the world so that lifecycle claims about
"no two live sessions" are observable.  JavaScript `Map` and plain-object
records are modelled as association lists with first-match lookup,
in-place update and single-entry deletion, matching `Map` semantics on the
duplicate-free key sets the source maintains.
-/

namespace Mcp

/-- Association-list model of a JS `Map` / plain object record: lookup
returns the value of the first entry with the given key. -/
def mapGet {α : Type} : List (String × α) → String → Option α
  | [], _ => none
  | (k, v) :: rest, key => if k = key then some v else mapGet rest key

/-- Model of `Map.set` / object property assignment: replace the first entry
with the given key in place, otherwise append a new entry (JS `Map`
preserves insertion order on update). -/
def mapSet {α : Type} : List (String × α) → String → α → List (String × α)
  | [], key, v => [(key, v)]
  | (k, w) :: rest, key, v =>
      if k = key then (key, v) :: rest else (k, w) :: mapSet rest key v

/-- Model of `Map.delete`: remove the first entry with the given key. -/
def mapDelete {α : Type} : List (String × α) → String → List (String × α)
  | [], _ => []
  | (k, w) :: rest, key => if k = key then rest else (k, w) :: mapDelete rest key

/-- Model of `Map.has`. -/
def mapHas {α : Type} (m : List (String × α)) (key : String) : Bool :=
  (mapGet m key).isSome

/-- Untyped JSON-like values, standing in for TypeScript `unknown` payloads
(tool arguments, tool results, parsed configuration). -/
inductive Json where
  | null : Json
  | bool (b : Bool) : Json
  | num (n : Int) : Json
  | str (s : String) : Json
  | arr (xs : List Json) : Json
  | obj (fields : List (String × Json)) : Json

/-- Whether a JSON value is an array, mirroring `Array.isArray` on a parsed
value. -/
def Json.isArr : Json → Bool
  | Json.arr _ => true
  | _ => false

mutual

/-- Compact serialization of a JSON value, modelling `JSON.stringify` on the
values the source serializes (string escaping is not modelled; the payloads
the claims touch contain no characters needing escapes). -/
def Json.stringify : Json → String
  | Json.null => "null"
  | Json.bool b => cond b "true" "false"
  | Json.num n => toString n
  | Json.str s => "\"" ++ s ++ "\""
  | Json.arr xs => "[" ++ Json.stringifyArr xs ++ "]"
  | Json.obj fs => "\x7b" ++ Json.stringifyObj fs ++ "\x7d"

/-- Comma-separated serialization of array elements. -/
def Json.stringifyArr : List Json → String
  | [] => ""
  | [x] => Json.stringify x
  | x :: y :: rest => Json.stringify x ++ "," ++ Json.stringifyArr (y :: rest)

/-- Comma-separated serialization of object fields. -/
def Json.stringifyObj : List (String × Json) → String
  | [] => ""
  | [(k, v)] => "\"" ++ k ++ "\":" ++ Json.stringify v
  | (k, v) :: f :: rest =>
      "\"" ++ k ++ "\":" ++ Json.stringify v ++ "," ++ Json.stringifyObj (f :: rest)

end

/-- TransportType from `types.ts`. -/
inductive TransportType where
  | stdio
  | http
  | sse
  deriving DecidableEq

/-- StdioConfig from `types.ts`. -/
structure StdioConfig where
  command : String
  args : Option (List String)
  env : Option (List (String × String))
  deriving DecidableEq

/-- HttpConfig from `types.ts`. -/
structure HttpConfig where
  url : String
  deriving DecidableEq

/-- SseConfig from `types.ts`. -/
structure SseConfig where
  url : String
  deriving DecidableEq

/-- The `config` field of `MCPServerConfig`: `StdioConfig | HttpConfig |
SseConfig`. -/
inductive ServerParams where
  | stdioP (c : StdioConfig)
  | httpP (c : HttpConfig)
  | sseP (c : SseConfig)
  deriving DecidableEq

/-- MCPServerConfig from `types.ts`. -/
structure MCPServerConfig where
  id : String
  name : String
  transport : TransportType
  config : ServerParams
  deriving DecidableEq

/-- ConnectionStatus from `types.ts`. -/
inductive ConnectionStatus where
  | disconnected
  | connecting
  | connected
  | error
  deriving DecidableEq

/-- Shape of a property entry inside a tool input schema, as read by
`convertMCPToolToFunctionDeclaration` (`value?.type`, `value?.description`). -/
structure PropSchema where
  type : Option String
  description : Option String
  deriving DecidableEq

/-- Shape of `MCPTool.inputSchema` as read by the chat route
(`inputSchema.properties`, `inputSchema.required`). -/
structure InputSchema where
  properties : Option (List (String × PropSchema))
  required : Option (List String)
  deriving DecidableEq

/-- MCPTool from `types.ts`. -/
structure MCPTool where
  name : String
  description : Option String
  inputSchema : Option InputSchema
  deriving DecidableEq

/-- Argument descriptor of an MCP prompt, from `types.ts`. -/
structure PromptArgument where
  name : String
  description : Option String
  required : Option Bool
  deriving DecidableEq

/-- MCPPrompt from `types.ts`. -/
structure MCPPrompt where
  name : String
  description : Option String
  arguments : Option (List PromptArgument)
  deriving DecidableEq

/-- MCPResource from `types.ts`. -/
structure MCPResource where
  uri : String
  name : Option String
  description : Option String
  mimeType : Option String
  deriving DecidableEq

/-- ManagedClient from the client manager: the `client : Client` object is
modelled by the numeric identity `sessionId` of the underlying session. -/
structure ManagedClient where
  sessionId : Nat
  config : MCPServerConfig
  status : ConnectionStatus
  error : Option String
  deriving DecidableEq

/-- Registry state of the `MCPClientManager` singleton plus ghost lifecycle
state: `clients` is the `Map<string, ManagedClient>`; `nextSession` numbers
the `Client` objects created so far; `live` records, per server id, every
session that was successfully connected and has not been successfully
closed (a live subprocess/socket). -/
structure World where
  clients : List (String × ManagedClient)
  nextSession : Nat
  live : List (String × Nat)
  deriving DecidableEq

/-- Empty registry: the manager's state at process start. -/
def emptyWorld : World := { clients := [], nextSession := 0, live := [] }

/-- Deterministic environment giving the outcome of every external SDK call
the manager performs.  `connectOutcome` covers transport construction plus
the `client.connect` handshake (`none` = success, `some msg` = the thrown
error's message); `closeOutcome` is `client.close` per session; the
remaining fields are the protocol calls of one session. -/
structure Env where
  connectOutcome : MCPServerConfig → Option String
  closeOutcome : Nat → Option String
  listToolsResult : Nat → Except String (List MCPTool)
  listPromptsResult : Nat → Except String (List MCPPrompt)
  listResourcesResult : Nat → Except String (List MCPResource)
  callToolResult : Nat → String → Option Json → Except String Json
  getPromptResult : Nat → String → Option (List (String × String)) → Except String (List Json)
  readResourceResult : Nat → String → Except String (List Json)

/-- Result shape `{ success: boolean; error?: string }` returned by
`connect` and `disconnect`. -/
structure OpResult where
  success : Bool
  error : Option String
  deriving DecidableEq

/-- Ghost log entry: one protocol-session invocation actually performed by a
facade operation, recording which server id it was addressed to. -/
inductive ProtocolCall where
  | listToolsCall (serverId : String)
  | listPromptsCall (serverId : String)
  | listResourcesCall (serverId : String)
  | callToolCall (serverId : String) (toolName : String) (args : Option Json)
  | getPromptCall (serverId : String) (promptName : String) (args : Option (List (String × String)))
  | readResourceCall (serverId : String) (uri : String)

/-- Server id a protocol call was addressed to. -/
def ProtocolCall.serverIdOf : ProtocolCall → String
  | ProtocolCall.listToolsCall sid => sid
  | ProtocolCall.listPromptsCall sid => sid
  | ProtocolCall.listResourcesCall sid => sid
  | ProtocolCall.callToolCall sid _ _ => sid
  | ProtocolCall.getPromptCall sid _ _ => sid
  | ProtocolCall.readResourceCall sid _ => sid

/-- Embedding of `MCPClientManager.disconnect` (src/unnamed/part_001 lines
109 to 125).  Note the source deletes the registry entry only after
`client.close()` resolves: on a close failure the `catch` branch returns the
error and the entry (and any live session) is left in place. -/
def disconnect (env : Env) (w : World) (serverId : String) : OpResult × World :=
  match mapGet w.clients serverId with
  | none => ({ success := false, error := some "Server not found" }, w)
  | some mc =>
      match env.closeOutcome mc.sessionId with
      | none =>
          ({ success := true, error := none },
           { w with clients := mapDelete w.clients serverId,
                    live := w.live.filter (fun p => p.2 != mc.sessionId) })
      | some msg => ({ success := false, error := some msg }, w)

/-- Embedding of the body of `MCPClientManager.connect` after the initial
idempotent-reconnect check: create the new `Client`, store it with status
`connecting`, then build the transport and connect (`connectOutcome`),
recording `connected` or `error` accordingly.  A successful connect makes
the new session live. -/
def connectFresh (env : Env) (w : World) (config : MCPServerConfig) : OpResult × World :=
  let sid := w.nextSession
  let mc : ManagedClient :=
    { sessionId := sid, config := config, status := ConnectionStatus.connecting, error := none }
  let w2 : World :=
    { clients := mapSet w.clients config.id mc, nextSession := sid + 1, live := w.live }
  match env.connectOutcome config with
  | none =>
      ({ success := true, error := none },
       { w2 with
           clients := mapSet w2.clients config.id { mc with status := ConnectionStatus.connected },
           live := w2.live ++ [(config.id, sid)] })
  | some msg =>
      ({ success := false, error := some msg },
       { w2 with
           clients := mapSet w2.clients config.id
             { mc with status := ConnectionStatus.error, error := some msg } })

/-- Embedding of `MCPClientManager.connect` (src/unnamed/part_001 lines 43
to 78): if an entry for `config.id` exists, first `await this.disconnect`
(its result is ignored), then proceed with the fresh connection.  The
definition is total: every outcome is returned as a structured result,
mirroring that the source never throws past this boundary. -/
def connect (env : Env) (w : World) (config : MCPServerConfig) : OpResult × World :=
  let w1 := if mapHas w.clients config.id then (disconnect env w config.id).2 else w
  connectFresh env w1 config

/-- Embedding of `MCPClientManager.getStatus` (lines 130 to 133):
`managedClient?.status ?? 'disconnected'`. -/
def getStatus (w : World) (serverId : String) : ConnectionStatus :=
  match mapGet w.clients serverId with
  | some mc => mc.status
  | none => ConnectionStatus.disconnected

/-- Recorded error message of a registry entry (`managedClient.error`). -/
def getError (w : World) (serverId : String) : Option String :=
  match mapGet w.clients serverId with
  | some mc => mc.error
  | none => none

/-- Result shape of `listTools`. -/
structure ListToolsResult where
  success : Bool
  tools : Option (List MCPTool)
  error : Option String
  deriving DecidableEq

/-- Embedding of `MCPClientManager.listTools` (lines 149 to 167): guard
`!managedClient || managedClient.status !== 'connected'`, then delegate to
the session, rebuilding each tool as `{name, description, inputSchema}`.
The second component logs the protocol invocations actually performed. -/
def listTools (env : Env) (w : World) (serverId : String) :
    ListToolsResult × List ProtocolCall :=
  match mapGet w.clients serverId with
  | none => ({ success := false, tools := none, error := some "Server not connected" }, [])
  | some mc =>
      if mc.status ≠ ConnectionStatus.connected then
        ({ success := false, tools := none, error := some "Server not connected" }, [])
      else
        match env.listToolsResult mc.sessionId with
        | Except.ok ts =>
            ({ success := true,
               tools := some (ts.map fun t =>
                 { name := t.name, description := t.description, inputSchema := t.inputSchema }),
               error := none },
             [ProtocolCall.listToolsCall serverId])
        | Except.error msg =>
            ({ success := false, tools := none, error := some msg },
             [ProtocolCall.listToolsCall serverId])

/-- Result shape of `listPrompts`. -/
structure ListPromptsResult where
  success : Bool
  prompts : Option (List MCPPrompt)
  error : Option String
  deriving DecidableEq

/-- Embedding of `MCPClientManager.listPrompts` (lines 172 to 190). -/
def listPrompts (env : Env) (w : World) (serverId : String) :
    ListPromptsResult × List ProtocolCall :=
  match mapGet w.clients serverId with
  | none => ({ success := false, prompts := none, error := some "Server not connected" }, [])
  | some mc =>
      if mc.status ≠ ConnectionStatus.connected then
        ({ success := false, prompts := none, error := some "Server not connected" }, [])
      else
        match env.listPromptsResult mc.sessionId with
        | Except.ok ps =>
            ({ success := true,
               prompts := some (ps.map fun p =>
                 { name := p.name, description := p.description, arguments := p.arguments }),
               error := none },
             [ProtocolCall.listPromptsCall serverId])
        | Except.error msg =>
            ({ success := false, prompts := none, error := some msg },
             [ProtocolCall.listPromptsCall serverId])

/-- Result shape of `listResources`. -/
structure ListResourcesResult where
  success : Bool
  resources : Option (List MCPResource)
  error : Option String
  deriving DecidableEq

/-- Embedding of `MCPClientManager.listResources` (lines 195 to 214). -/
def listResources (env : Env) (w : World) (serverId : String) :
    ListResourcesResult × List ProtocolCall :=
  match mapGet w.clients serverId with
  | none => ({ success := false, resources := none, error := some "Server not connected" }, [])
  | some mc =>
      if mc.status ≠ ConnectionStatus.connected then
        ({ success := false, resources := none, error := some "Server not connected" }, [])
      else
        match env.listResourcesResult mc.sessionId with
        | Except.ok rs =>
            ({ success := true,
               resources := some (rs.map fun r =>
                 { uri := r.uri, name := r.name, description := r.description,
                   mimeType := r.mimeType }),
               error := none },
             [ProtocolCall.listResourcesCall serverId])
        | Except.error msg =>
            ({ success := false, resources := none, error := some msg },
             [ProtocolCall.listResourcesCall serverId])

/-- Result shape of `callTool` (`result` is the untyped tool payload). -/
structure CallToolResult where
  success : Bool
  result : Option Json
  error : Option String

/-- Embedding of `MCPClientManager.callTool` (lines 219 to 239). -/
def callTool (env : Env) (w : World) (serverId : String) (toolName : String)
    (args : Option Json) : CallToolResult × List ProtocolCall :=
  match mapGet w.clients serverId with
  | none => ({ success := false, result := none, error := some "Server not connected" }, [])
  | some mc =>
      if mc.status ≠ ConnectionStatus.connected then
        ({ success := false, result := none, error := some "Server not connected" }, [])
      else
        match env.callToolResult mc.sessionId toolName args with
        | Except.ok v =>
            ({ success := true, result := some v, error := none },
             [ProtocolCall.callToolCall serverId toolName args])
        | Except.error msg =>
            ({ success := false, result := none, error := some msg },
             [ProtocolCall.callToolCall serverId toolName args])

/-- Result shape of `getPrompt`. -/
structure GetPromptResult where
  success : Bool
  messages : Option (List Json)
  error : Option String

/-- Embedding of `MCPClientManager.getPrompt` (lines 244 to 264). -/
def getPrompt (env : Env) (w : World) (serverId : String) (promptName : String)
    (args : Option (List (String × String))) : GetPromptResult × List ProtocolCall :=
  match mapGet w.clients serverId with
  | none => ({ success := false, messages := none, error := some "Server not connected" }, [])
  | some mc =>
      if mc.status ≠ ConnectionStatus.connected then
        ({ success := false, messages := none, error := some "Server not connected" }, [])
      else
        match env.getPromptResult mc.sessionId promptName args with
        | Except.ok ms =>
            ({ success := true, messages := some ms, error := none },
             [ProtocolCall.getPromptCall serverId promptName args])
        | Except.error msg =>
            ({ success := false, messages := none, error := some msg },
             [ProtocolCall.getPromptCall serverId promptName args])

/-- Result shape of `readResource`. -/
structure ReadResourceResult where
  success : Bool
  contents : Option (List Json)
  error : Option String

/-- Embedding of `MCPClientManager.readResource` (lines 269 to 285). -/
def readResource (env : Env) (w : World) (serverId : String) (uri : String) :
    ReadResourceResult × List ProtocolCall :=
  match mapGet w.clients serverId with
  | none => ({ success := false, contents := none, error := some "Server not connected" }, [])
  | some mc =>
      if mc.status ≠ ConnectionStatus.connected then
        ({ success := false, contents := none, error := some "Server not connected" }, [])
      else
        match env.readResourceResult mc.sessionId uri with
        | Except.ok cs =>
            ({ success := true, contents := some cs, error := none },
             [ProtocolCall.readResourceCall serverId uri])
        | Except.error msg =>
            ({ success := false, contents := none, error := some msg },
             [ProtocolCall.readResourceCall serverId uri])

/-- One element of the `getAllTools` aggregate:
`{ serverId, serverName, tools }`. -/
structure ServerTools where
  serverId : String
  serverName : String
  tools : List MCPTool
  deriving DecidableEq

/-- Recursion of `MCPClientManager.getAllTools` over the registry entries in
iteration order: query `listTools` for every entry with status `connected`
and keep only successful results. -/
def getAllToolsGo (env : Env) (w : World) :
    List (String × ManagedClient) → List ServerTools × List ProtocolCall
  | [] => ([], [])
  | (sid, mc) :: rest =>
      if mc.status = ConnectionStatus.connected then
        let rl := listTools env w sid
        let tail := getAllToolsGo env w rest
        match rl.1.tools with
        | some ts =>
            if rl.1.success then (⟨sid, mc.config.name, ts⟩ :: tail.1, rl.2 ++ tail.2)
            else (tail.1, rl.2 ++ tail.2)
        | none => (tail.1, rl.2 ++ tail.2)
      else getAllToolsGo env w rest

/-- Embedding of `MCPClientManager.getAllTools` (lines 290 to 307). -/
def getAllTools (env : Env) (w : World) : List ServerTools × List ProtocolCall :=
  getAllToolsGo env w w.clients

/-- The Gemini `Type` enum from the chat route's schema conversion. -/
inductive GType where
  | TYPE_UNSPECIFIED
  | STRING
  | NUMBER
  | INTEGER
  | BOOLEAN
  | ARRAY
  | OBJECT
  | NULL
  deriving DecidableEq

/-- Lookup `Type[propType as keyof typeof Type]`: `none` models an absent
enum member. -/
def lookupGType : String → Option GType
  | "TYPE_UNSPECIFIED" => some GType.TYPE_UNSPECIFIED
  | "STRING" => some GType.STRING
  | "NUMBER" => some GType.NUMBER
  | "INTEGER" => some GType.INTEGER
  | "BOOLEAN" => some GType.BOOLEAN
  | "ARRAY" => some GType.ARRAY
  | "OBJECT" => some GType.OBJECT
  | "NULL" => some GType.NULL
  | _ => none

/-- Converted property of a function-declaration parameter schema. -/
structure PropDecl where
  type : GType
  description : String
  deriving DecidableEq

/-- The `parameters` field of a Gemini function declaration built by the
chat route. -/
structure ParamSchema where
  type : GType
  properties : List (String × PropDecl)
  required : List String
  deriving DecidableEq

/-- A Gemini function declaration as built by the chat route. -/
structure FunctionDeclaration where
  name : String
  description : String
  parameters : ParamSchema
  deriving DecidableEq

/-- Conversion of one declared property: `value?.type?.toUpperCase() ||
"STRING"` (the empty string is falsy in JS) then `Type[propType] ||
Type.STRING`. -/
def convertProp (v : PropSchema) : PropDecl :=
  let propType :=
    match v.type with
    | some s => if s.toUpper = "" then "STRING" else s.toUpper
    | none => "STRING"
  { type := (lookupGType propType).getD GType.STRING,
    description := (v.description).getD "" }

/-- Embedding of `convertMCPToolToFunctionDeclaration`
(src/app/api/chat/route.ts lines 9 to 44): the declaration is named
`serverId__toolName`, its description is prefixed with `[serverName]`, and
its parameters are the converted property schemas. -/
def convertMCPToolToFunctionDeclaration (tool : MCPTool) (serverId : String)
    (serverName : String) : FunctionDeclaration :=
  let inputSchema := tool.inputSchema.getD { properties := none, required := none }
  let convertedProperties :=
    match inputSchema.properties with
    | some ps => ps.map fun p => (p.1, convertProp p.2)
    | none => []
  { name := serverId ++ "__" ++ tool.name,
    description :=
      "[" ++ serverName ++ "] " ++
        (match tool.description with
         | some d => if d = "" then tool.name else d
         | none => tool.name),
    parameters :=
      { type := GType.OBJECT,
        properties := convertedProperties,
        required := (inputSchema.required).getD [] } }

/-- Value of the `toolMap` record: the `(serverId, toolName)` pair a
namespaced function name resolves to. -/
structure ToolRef where
  serverId : String
  toolName : String
  deriving DecidableEq

/-- Inner loop of `getMCPFunctionDeclarations`: push one declaration per
tool and record `toolMap[declaration.name] = { serverId, toolName }`. -/
def aggToolsGo (serverId serverName : String)
    (acc : List FunctionDeclaration × List (String × ToolRef)) :
    List MCPTool → List FunctionDeclaration × List (String × ToolRef)
  | [] => acc
  | t :: ts =>
      let d := convertMCPToolToFunctionDeclaration t serverId serverName
      aggToolsGo serverId serverName
        (acc.1 ++ [d], mapSet acc.2 d.name { serverId := serverId, toolName := t.name }) ts

/-- Outer loop of `getMCPFunctionDeclarations` over the aggregated servers. -/
def aggregateGo (acc : List FunctionDeclaration × List (String × ToolRef)) :
    List ServerTools → List FunctionDeclaration × List (String × ToolRef)
  | [] => acc
  | st :: rest => aggregateGo (aggToolsGo st.serverId st.serverName acc st.tools) rest

/-- Declaration/toolMap aggregation of `getMCPFunctionDeclarations`
(route.ts lines 47 to 65) over an already-fetched `getAllTools` result. -/
def aggregateDeclarations (allTools : List ServerTools) :
    List FunctionDeclaration × List (String × ToolRef) :=
  aggregateGo ([], []) allTools

/-- Embedding of `getMCPFunctionDeclarations`: fetch all tools of connected
servers and aggregate them. -/
def getMCPFunctionDeclarations (env : Env) (w : World) :
    List FunctionDeclaration × List (String × ToolRef) :=
  aggregateDeclarations (getAllTools env w).1

/-- The `toolMap` used by a chat turn. -/
def toolMapOf (env : Env) (w : World) : List (String × ToolRef) :=
  (getMCPFunctionDeclarations env w).2

/-- Embedding of `executeMCPToolCall` (route.ts lines 68 to 89): resolve the
namespaced name through `toolMap`; an unknown name yields the per-call error
object `{ error: "Unknown tool: <name>" }` without touching any session;
otherwise delegate to `callTool` on the owning server and unwrap the
result.  The second component is the protocol-call log of the delegate. -/
def executeMCPToolCall (env : Env) (w : World) (functionName : String)
    (args : Json) (toolMap : List (String × ToolRef)) : Json × List ProtocolCall :=
  match mapGet toolMap functionName with
  | none => (Json.obj [("error", Json.str ("Unknown tool: " ++ functionName))], [])
  | some toolInfo =>
      let rl := callTool env w toolInfo.serverId toolInfo.toolName (some args)
      if rl.1.success then ((rl.1.result).getD Json.null, rl.2)
      else
        ((Json.obj [("error",
            match rl.1.error with
            | some e => Json.str e
            | none => Json.null)]), rl.2)

/-- One requested function call in a model response
(`response.functionCalls` elements: `call.name`, `call.args`). -/
structure FunctionCall where
  name : Option String
  args : Option Json

/-- A model response as consumed by the loop: the requested function calls
(possibly absent) and the text. -/
structure ModelResponse where
  functionCalls : Option (List FunctionCall)
  text : Option String

/-- One part of a Gemini content message. -/
inductive MsgPart where
  | textPart (s : String)
  | functionCallPart (name : Option String) (args : Option Json)
  | functionResponsePart (name : Option String) (response : Json)

/-- One Gemini content message: a role and its parts. -/
structure Content where
  role : String
  parts : List MsgPart

/-- Audit entry pushed into `toolCallsInfo` for each executed call whose
name resolved through `toolMap`. -/
structure ToolCallRecord where
  serverName : String
  toolName : String
  arguments : Json
  result : Json

/-- Ghost log of one loop round: the conversation sent to the model, the
model's response, and the function-response parts fed back (empty on the
final round). -/
structure RoundLog where
  request : List Content
  response : ModelResponse
  sentResponses : List MsgPart

/-- Observable outcome of the function-calling portion of one chat turn:
`finalText` and `toolCalls` are what `POST` returns to the client;
`rounds` is ghost instrumentation with one entry per `generateContent`
round-trip actually performed. -/
structure TurnResult where
  finalText : String
  toolCalls : List ToolCallRecord
  rounds : List RoundLog

/-- Per-round processing of the requested calls (route.ts lines 216 to 247):
execute each call, push a `ToolCallRecord` when the name resolved (with the
server's display name looked up through `serverNameMap`), and build the
`functionResponse` part carrying the serialized result. -/
def processCalls (env : Env) (w : World) (toolMap : List (String × ToolRef))
    (serverNameMap : List (String × String)) :
    List FunctionCall → List ToolCallRecord × List MsgPart
  | [] => ([], [])
  | call :: rest =>
      let fname := call.name.getD ""
      let fargs := call.args.getD (Json.obj [])
      let result := (executeMCPToolCall env w fname fargs toolMap).1
      let recs : List ToolCallRecord :=
        match mapGet toolMap fname with
        | some ti =>
            [{ serverName := (mapGet serverNameMap ti.serverId).getD ti.serverId,
               toolName := ti.toolName, arguments := fargs, result := result }]
        | none => []
      let rp := MsgPart.functionResponsePart call.name
        (Json.obj [("result", Json.str (Json.stringify result))])
      let tail := processCalls env w toolMap serverNameMap rest
      (recs ++ tail.1, rp :: tail.2)

/-- Embedding of the `while (iterations < maxIterations)` function-calling
loop of `POST` (route.ts lines 194 to 271), with the remaining iteration
budget as explicit fuel.  A response with a nonempty `functionCalls` batch
executes the calls, appends the model's call message and the function
responses to the conversation and recurses; otherwise the response text is
final.  Exhausted fuel returns the accumulated state with the initial empty
`finalResponse`. -/
def fcLoop (env : Env) (w : World) (gen : List Content → ModelResponse)
    (toolMap : List (String × ToolRef)) (serverNameMap : List (String × String)) :
    Nat → List Content → List ToolCallRecord → List RoundLog → TurnResult
  | 0, _, acc, logs => { finalText := "", toolCalls := acc, rounds := logs }
  | fuel + 1, contents, acc, logs =>
      let response := gen contents
      match response.functionCalls with
      | some calls =>
          if calls.isEmpty then
            { finalText := response.text.getD "", toolCalls := acc,
              rounds := logs ++ [⟨contents, response, []⟩] }
          else
            let step := processCalls env w toolMap serverNameMap calls
            let newContents := contents ++
              [{ role := "model",
                 parts := calls.map fun c => MsgPart.functionCallPart c.name c.args },
               { role := "user", parts := step.2 }]
            fcLoop env w gen toolMap serverNameMap fuel newContents (acc ++ step.1)
              (logs ++ [⟨contents, response, step.2⟩])
      | none =>
          { finalText := response.text.getD "", toolCalls := acc,
            rounds := logs ++ [⟨contents, response, []⟩] }

/-- Records contributed by one round's response: the `ToolCallRecord`s its
requested calls produce, empty for a final (no-calls) response. -/
def roundRecords (env : Env) (w : World) (toolMap : List (String × ToolRef))
    (serverNameMap : List (String × String)) (response : ModelResponse) :
    List ToolCallRecord :=
  match response.functionCalls with
  | some calls =>
      if calls.isEmpty then [] else (processCalls env w toolMap serverNameMap calls).1
  | none => []

/-- Construction of `serverNameMap` (route.ts lines 188 to 192). -/
def serverNameMapGo (acc : List (String × String)) :
    List ServerTools → List (String × String)
  | [] => acc
  | st :: rest => serverNameMapGo (mapSet acc st.serverId st.serverName) rest

/-- The `serverNameMap` used by a chat turn. -/
def serverNameMapOf (env : Env) (w : World) : List (String × String) :=
  serverNameMapGo [] (getAllTools env w).1

/-- The function-calling portion of one chat turn: aggregate declarations
and the tool map, then run the loop with the hard cap `maxIterations = 5`
of the source on the composed conversation. -/
def runChatTurn (env : Env) (w : World) (gen : List Content → ModelResponse)
    (contents : List Content) : TurnResult :=
  fcLoop env w gen (toolMapOf env w) (serverNameMapOf env w) 5 contents [] []

/-- Client-side per-server state kept by the context provider
(`MCPServerState`): the imported configuration is stored exactly as parsed
(the source casts the parsed JSON without validating record shapes), so the
`config` field is modelled as a raw JSON value. -/
structure ServerEntry where
  config : Json
  status : ConnectionStatus

/-- Embedding of `exportConfig` (src/lib/mcp/context.tsx lines 393 to 396):
the JSON array of the configured records that `JSON.stringify` serializes. -/
def exportConfig (servers : List ServerEntry) : Json :=
  Json.arr (servers.map fun s => s.config)

/-- Embedding of `importConfig` (context.tsx lines 399 to 416).  The
`JSON.parse` boundary is abstracted: the argument is the parse outcome of
the input string (`none` when `JSON.parse` throws).  A parsed array
replaces the whole configured set, every entry `disconnected`, and returns
`true`; anything else returns `false` and leaves the set unchanged. -/
def importConfig (parsed : Option Json) (servers : List ServerEntry) :
    Bool × List ServerEntry :=
  match parsed with
  | none => (false, servers)
  | some (Json.arr configs) =>
      (true, configs.map fun c => { config := c, status := ConnectionStatus.disconnected })
  | some _ => (false, servers)

/-- Baseline environment for concrete scenarios: transport construction and
handshake succeed, `close` succeeds, and every protocol call fails with a
generic remote error. -/
def baseEnv : Env :=
  { connectOutcome := fun _ => none,
    closeOutcome := fun _ => none,
    listToolsResult := fun _ => Except.error "no remote",
    listPromptsResult := fun _ => Except.error "no remote",
    listResourcesResult := fun _ => Except.error "no remote",
    callToolResult := fun _ _ _ => Except.error "no remote",
    getPromptResult := fun _ _ _ => Except.error "no remote",
    readResourceResult := fun _ _ => Except.error "no remote" }

/-- Sample stdio server configuration with id `a`. -/
def cfgA : MCPServerConfig :=
  { id := "a", name := "srv",
    transport := TransportType.stdio,
    config := ServerParams.stdioP { command := "echo", args := none, env := none } }

/-- Sample stdio server configuration with id `b`. -/
def cfgB : MCPServerConfig :=
  { id := "b", name := "B",
    transport := TransportType.stdio,
    config := ServerParams.stdioP { command := "echo", args := none, env := none } }

/-- Environment in which `client.close()` always throws. -/
def envCloseFail : Env := { baseEnv with closeOutcome := fun _ => some "close failed" }

/-- Registry holding one connected server `a` with session `0`, the state
reached by a successful `connect cfgA` on the empty registry. -/
def wOne : World :=
  { clients := [("a",
      { sessionId := 0, config := cfgA, status := ConnectionStatus.connected, error := none })],
    nextSession := 1, live := [("a", 0)] }

/-- Registry holding one server `a` whose entry has status `error`. -/
def wErr : World :=
  { clients := [("a",
      { sessionId := 0, config := cfgA, status := ConnectionStatus.error,
        error := some "boom" })],
    nextSession := 1, live := [] }

/-- Registry with two connected servers `a` (session 0) and `b`
(session 1). -/
def wTwo : World :=
  { clients :=
      [("a", { sessionId := 0, config := cfgA, status := ConnectionStatus.connected,
               error := none }),
       ("b", { sessionId := 1, config := cfgB, status := ConnectionStatus.connected,
               error := none })],
    nextSession := 2, live := [("a", 0), ("b", 1)] }

/-- Environment in which session 0 lists one tool `t1` and every other
session's `listTools` throws. -/
def envSplit : Env :=
  { baseEnv with
      listToolsResult := fun s =>
        if s = 0 then Except.ok [{ name := "t1", description := none, inputSchema := none }]
        else Except.error "boom" }

/-- Model behaviour that requests the same (unknown) tool call on every
round, never producing a final text response. -/
def genU : List Content → ModelResponse :=
  fun _ =>
    { functionCalls := some [{ name := some "zzz", args := some (Json.obj []) }],
      text := none }

/-- The guard `!managedClient || managedClient.status !== 'connected'`
shared by every capability-facade operation. -/
def notConnectedGuard (w : World) (serverId : String) : Bool :=
  match mapGet w.clients serverId with
  | none => true
  | some mc => mc.status != ConnectionStatus.connected

/-- Lookup after update at the same key. -/
theorem mapGet_mapSet_self {α : Type} (m : List (String × α)) (k : String) (v : α) :
    mapGet (mapSet m k v) k = some v := by
  induction m with
  | nil => simp [mapSet, mapGet]
  | cons p rest ih =>
      obtain ⟨k', v'⟩ := p
      by_cases h : k' = k
      · simp [mapSet, mapGet, h]
      · simp [mapSet, mapGet, h, ih]

/-- Lookup after update at a different key. -/
theorem mapGet_mapSet_ne {α : Type} (m : List (String × α)) (k key : String) (v : α)
    (h : key ≠ k) : mapGet (mapSet m k v) key = mapGet m key := by
  have h' : ¬(k = key) := fun hh => h hh.symm
  induction m with
  | nil => simp [mapSet, mapGet, h']
  | cons p rest ih =>
      obtain ⟨k', v'⟩ := p
      by_cases hk : k' = k
      · subst hk
        simp [mapSet, mapGet, h']
      · simp only [mapSet, if_neg hk]
        by_cases hkey : k' = key
        · simp [mapGet, hkey]
        · simp [mapGet, hkey, ih]

/-- A successful lookup comes from an entry of the list. -/
theorem mem_of_mapGet {α : Type} (m : List (String × α)) (k : String) (v : α)
    (h : mapGet m k = some v) : (k, v) ∈ m := by
  induction m with
  | nil => simp [mapGet] at h
  | cons p rest ih =>
      obtain ⟨k', v'⟩ := p
      by_cases hk : k' = k
      · subst hk
        simp [mapGet] at h
        subst h
        exact List.mem_cons_self _ _
      · simp [mapGet, hk] at h
        exact List.mem_cons_of_mem _ (ih h)

/-- Lookup misses when the key is absent. -/
theorem mapGet_eq_none_of_not_mem {α : Type} (m : List (String × α)) (k : String)
    (h : k ∉ m.map Prod.fst) : mapGet m k = none := by
  induction m with
  | nil => simp [mapGet]
  | cons p rest ih =>
      obtain ⟨k', v'⟩ := p
      have hk : ¬(k' = k) := by
        intro hh
        exact h (by simp [hh])
      have h2 : k ∉ rest.map Prod.fst := by
        intro hh
        exact h (by simp [hh])
      simp [mapGet, hk, ih h2]

/-- On duplicate-free keys, membership determines lookup. -/
theorem mapGet_of_mem_nodup {α : Type} (m : List (String × α)) (k : String) (v : α)
    (wf : (m.map Prod.fst).Nodup) (h : (k, v) ∈ m) : mapGet m k = some v := by
  induction m with
  | nil => simp at h
  | cons p rest ih =>
      obtain ⟨k', v'⟩ := p
      rw [List.map_cons, List.nodup_cons] at wf
      rcases List.mem_cons.mp h with h1 | h1
      · rw [Prod.mk.injEq] at h1
        obtain ⟨hk, hv⟩ := h1
        subst hk
        subst hv
        simp [mapGet]
      · have hk : ¬(k' = k) := by
          intro hh
          subst hh
          exact wf.1 (List.mem_map.mpr ⟨(k', v), h1, rfl⟩)
        simp [mapGet, hk, ih wf.2 h1]

/-- Deleting a key removes it from a duplicate-free map. -/
theorem mapGet_mapDelete_self {α : Type} (m : List (String × α)) (k : String)
    (wf : (m.map Prod.fst).Nodup) : mapGet (mapDelete m k) k = none := by
  induction m with
  | nil => simp [mapDelete, mapGet]
  | cons p rest ih =>
      obtain ⟨k', v'⟩ := p
      rw [List.map_cons, List.nodup_cons] at wf
      by_cases hk : k' = k
      · subst hk
        simp only [mapDelete, if_pos rfl]
        exact mapGet_eq_none_of_not_mem rest k' wf.1
      · simp [mapDelete, mapGet, hk, ih wf.2]

/-- Claim C2, counterexample: with a registry holding connected server `a`
and an environment where `client.close()` throws, `disconnect` reports the
close failure but does NOT remove the entry: afterwards `getStatus` still
answers `connected` (not `disconnected`) and a second `disconnect` retries
the close (failing with the close error, not with `Server not found`).
This contradicts the claim that the entry is removed regardless. -/
theorem C2_counterexample :
    (disconnect envCloseFail wOne "a").1 = { success := false, error := some "close failed" }
  ∧ getStatus (disconnect envCloseFail wOne "a").2 "a" = ConnectionStatus.connected
  ∧ (disconnect envCloseFail (disconnect envCloseFail wOne "a").2 "a").1
      = { success := false, error := some "close failed" } := by
  refine ⟨by decide, by decide, by decide⟩

/-- Claim C2, amended: `disconnect` removes the registry entry only when
closing the session succeeds; a close failure is reported in the result and
the entry remains tracked unchanged (same registry state, so `getStatus`
keeps its previous answer and a later `disconnect` retries).  When the
close succeeds the entry is removed: `getStatus` then answers
`disconnected` and a second `disconnect` fails with `Server not found`. -/
theorem C2_disconnect_removal (env : Env) (w : World) (sid : String) :
    (mapGet w.clients sid = none →
      disconnect env w sid = ({ success := false, error := some "Server not found" }, w))
  ∧ (∀ mc msg, mapGet w.clients sid = some mc →
      env.closeOutcome mc.sessionId = some msg →
      disconnect env w sid = ({ success := false, error := some msg }, w))
  ∧ (∀ mc, mapGet w.clients sid = some mc →
      env.closeOutcome mc.sessionId = none →
      (w.clients.map Prod.fst).Nodup →
      (disconnect env w sid).1 = { success := true, error := none }
      ∧ mapGet (disconnect env w sid).2.clients sid = none
      ∧ getStatus (disconnect env w sid).2 sid = ConnectionStatus.disconnected
      ∧ (disconnect env (disconnect env w sid).2 sid).1
          = { success := false, error := some "Server not found" }) := by
  refine ⟨?_, ?_, ?_⟩
  · intro hm
    simp [disconnect, hm]
  · intro mc msg hm hc
    simp [disconnect, hm, hc]
  · intro mc hm hc wf
    have hd : disconnect env w sid =
        ({ success := true, error := none },
         { w with clients := mapDelete w.clients sid,
                  live := w.live.filter (fun p => p.2 != mc.sessionId) }) := by
      simp [disconnect, hm, hc]
    have hget : mapGet (disconnect env w sid).2.clients sid = none := by
      rw [hd]
      exact mapGet_mapDelete_self _ _ wf
    refine ⟨by rw [hd], hget, ?_, ?_⟩
    · simp [getStatus, hget]
    · have hfin : ∀ w2 : World, mapGet w2.clients sid = none →
          (disconnect env w2 sid).1 = { success := false, error := some "Server not found" } := by
        intro w2 hg
        simp [disconnect, hg]
      exact hfin _ hget

/-- Witness for the amended C2 theorem at a concrete input: the
close-failure branch on the one-server registry. -/
theorem C2_disconnect_removal_witness :
    disconnect envCloseFail wOne "a"
      = ({ success := false, error := some "close failed" }, wOne) :=
  (C2_disconnect_removal envCloseFail wOne "a").2.1
    { sessionId := 0, config := cfgA, status := ConnectionStatus.connected, error := none }
    "close failed" rfl rfl

/-- Claim C1, counterexample: starting from an empty registry, connect
server `a` (session 0 becomes live), then connect the same id again in an
environment where `client.close()` throws.  The inner `disconnect` fails,
`connect` ignores that failure and establishes session 1 anyway, so after
the second `connect` both session 0 and session 1 are live for id `a` —
two live sessions coexist, contradicting the claim. -/
theorem C1_counterexample :
    (connect envCloseFail (connect envCloseFail emptyWorld cfgA).2 cfgA).2.live
      = [("a", 0), ("a", 1)] := by
  decide

/-- Claim C1, amended: `connect` on an already-present id first runs
`disconnect`; when the underlying `close` succeeds, the first session is no
longer live before the new session is created (first conjunct: the state
the fresh connection starts from has no live session for the id), and after
`connect` finishes at most one session is live for the id (second
conjunct).  When the close fails, `connect` proceeds regardless and the old
session can remain live alongside the new one (see the counterexample). -/
theorem C1_reconnect_serializes (env : Env) (w : World) (config : MCPServerConfig)
    (mc : ManagedClient)
    (hm : mapGet w.clients config.id = some mc)
    (hc : env.closeOutcome mc.sessionId = none)
    (hlive : ∀ p ∈ w.live, p.1 = config.id → p.2 = mc.sessionId) :
    (∀ p ∈ (disconnect env w config.id).2.live, p.1 ≠ config.id)
  ∧ (∀ p ∈ (connect env w config).2.live, ∀ q ∈ (connect env w config).2.live,
      p.1 = config.id → q.1 = config.id → p = q) := by
  have hd2 : (disconnect env w config.id).2 =
      { w with clients := mapDelete w.clients config.id,
               live := w.live.filter (fun p => p.2 != mc.sessionId) } := by
    simp [disconnect, hm, hc]
  have hnone : ∀ p ∈ (disconnect env w config.id).2.live, p.1 ≠ config.id := by
    rw [hd2]
    intro p hp hpid
    simp only [List.mem_filter] at hp
    have h1 := hlive p hp.1 hpid
    have h2 : p.2 ≠ mc.sessionId := by simpa using hp.2
    exact h2 h1
  refine ⟨hnone, ?_⟩
  have hhas : mapHas w.clients config.id = true := by
    simp [mapHas, hm]
  have hcon : connect env w config = connectFresh env (disconnect env w config.id).2 config := by
    simp [connect, hhas]
  rw [hcon]
  rcases ho : env.connectOutcome config with _ | msg
  · simp only [connectFresh, ho]
    intro p hp q hq hpid hqid
    simp only [List.mem_append, List.mem_singleton] at hp hq
    rcases hp with hp | hp
    · exact absurd hpid (hnone p hp)
    · rcases hq with hq | hq
      · exact absurd hqid (hnone q hq)
      · rw [hp, hq]
  · simp only [connectFresh, ho]
    intro p hp q hq hpid hqid
    exact absurd hpid (hnone p hp)

/-- Witness for the amended C1 theorem at a concrete input: when close
succeeds, the state after the inner disconnect holds no live session for
the reconnecting id. -/
theorem C1_reconnect_serializes_witness :
    ((disconnect baseEnv wOne "a").2.live.all (fun p => p.1 != "a")) = true := by
  have h := (C1_reconnect_serializes baseEnv wOne cfgA
      { sessionId := 0, config := cfgA, status := ConnectionStatus.connected, error := none }
      rfl rfl (by decide)).1
  rw [List.all_eq_true]
  intro p hp
  simpa using h p hp

/-- Claim C4: once `connect` has settled, `getStatus(config.id)` is
`connected` or `error`, never `connecting`; a handshake/transport failure
yields the structured failure result with the message recorded on the
entry, a success yields the structured success result — the embedding is a
total function, mirroring that the source never throws past this
boundary. -/
theorem C4_connect_settles (env : Env) (w : World) (config : MCPServerConfig) :
    (getStatus (connect env w config).2 config.id = ConnectionStatus.connected
      ∨ getStatus (connect env w config).2 config.id = ConnectionStatus.error)
  ∧ (env.connectOutcome config = none →
      (connect env w config).1 = { success := true, error := none }
      ∧ getStatus (connect env w config).2 config.id = ConnectionStatus.connected)
  ∧ (∀ msg, env.connectOutcome config = some msg →
      (connect env w config).1 = { success := false, error := some msg }
      ∧ getStatus (connect env w config).2 config.id = ConnectionStatus.error
      ∧ getError (connect env w config).2 config.id = some msg) := by
  unfold connect
  rcases ho : env.connectOutcome config with _ | msg
  · simp [connectFresh, ho, getStatus, getError, mapGet_mapSet_self]
  · simp [connectFresh, ho, getStatus, getError, mapGet_mapSet_self]

/-- Witness for C4 at a concrete input: a successful fresh connect reports
status `connected`. -/
theorem C4_connect_settles_witness :
    getStatus (connect baseEnv emptyWorld cfgA).2 cfgA.id = ConnectionStatus.connected :=
  ((C4_connect_settles baseEnv emptyWorld cfgA).2.1 rfl).2

/-- Claim C3: every capability operation against an id whose entry is
absent or whose status is not `connected` returns the structured
`Server not connected` failure and performs no protocol-session invocation
(empty call log). -/
theorem C3_facade_guard (env : Env) (w : World) (sid : String)
    (h : notConnectedGuard w sid = true) :
    listTools env w sid
      = ({ success := false, tools := none, error := some "Server not connected" }, [])
  ∧ listPrompts env w sid
      = ({ success := false, prompts := none, error := some "Server not connected" }, [])
  ∧ listResources env w sid
      = ({ success := false, resources := none, error := some "Server not connected" }, [])
  ∧ (∀ toolName args, callTool env w sid toolName args
      = ({ success := false, result := none, error := some "Server not connected" }, []))
  ∧ (∀ promptName args, getPrompt env w sid promptName args
      = ({ success := false, messages := none, error := some "Server not connected" }, []))
  ∧ (∀ uri, readResource env w sid uri
      = ({ success := false, contents := none, error := some "Server not connected" }, [])) := by
  unfold notConnectedGuard at h
  rcases hm : mapGet w.clients sid with _ | mc
  · refine ⟨?_, ?_, ?_, ?_, ?_, ?_⟩ <;>
      simp [listTools, listPrompts, listResources, callTool, getPrompt, readResource, hm]
  · rw [hm] at h
    have hs : mc.status ≠ ConnectionStatus.connected := by simpa using h
    refine ⟨?_, ?_, ?_, ?_, ?_, ?_⟩ <;>
      simp [listTools, listPrompts, listResources, callTool, getPrompt, readResource, hm, hs]

/-- Witness for C3 at a concrete input: the facade refuses every operation
on server `a` whose entry has status `error`. -/
theorem C3_facade_guard_witness :
    listTools baseEnv wErr "a"
      = ({ success := false, tools := none, error := some "Server not connected" }, [])
  ∧ callTool baseEnv wErr "a" "t" none
      = ({ success := false, result := none, error := some "Server not connected" }, []) :=
  ⟨(C3_facade_guard baseEnv wErr "a" (by decide)).1,
   (C3_facade_guard baseEnv wErr "a" (by decide)).2.2.2.1 "t" none⟩

/-- String append cancels on the right. -/
theorem string_append_cancel_right (a b c : String) (h : a ++ c = b ++ c) : a = b := by
  have h1 : (a ++ c).data = (b ++ c).data := by rw [h]
  rw [String.data_append, String.data_append] at h1
  have h2 := List.append_cancel_right h1
  cases a
  cases b
  exact congrArg String.mk h2

/-- Every protocol call logged by `callTool` is addressed to the requested
server id. -/
theorem callTool_log_serverId (env : Env) (w : World) (sid tn : String) (a : Option Json) :
    ∀ pc ∈ (callTool env w sid tn a).2, pc.serverIdOf = sid := by
  intro pc hpc
  unfold callTool at hpc
  rcases hm : mapGet w.clients sid with _ | mc <;> rw [hm] at hpc
  · simp at hpc
  · by_cases hs : mc.status ≠ ConnectionStatus.connected
    · simp [hs] at hpc
    · rcases hr : env.callToolResult mc.sessionId tn a with msg | v <;>
        simp [hs, hr] at hpc <;> subst hpc <;> rfl

/-- Claim C5: two servers with distinct ids each exposing a tool with the
same bare name yield two distinct namespaced declarations
(`idA__t` and `idB__t`); the tool map resolves `idA__t` to server `idA`'s
tool, and executing `idA__t` performs exactly the protocol calls of
`callTool` on server `idA` — every logged call is addressed to `idA`, so
server `idB`'s implementation is never invoked. -/
theorem C5_namespaced_routing (env : Env) (w : World)
    (idA idB nameA nameB t : String) (dA dB : Option String)
    (sA sB : Option InputSchema) (args : Json) (hne : idA ≠ idB) :
    ((aggregateDeclarations
        [⟨idA, nameA, [⟨t, dA, sA⟩]⟩, ⟨idB, nameB, [⟨t, dB, sB⟩]⟩]).1.map
          (fun d => d.name))
      = [idA ++ "__" ++ t, idB ++ "__" ++ t]
  ∧ idA ++ "__" ++ t ≠ idB ++ "__" ++ t
  ∧ mapGet (aggregateDeclarations
        [⟨idA, nameA, [⟨t, dA, sA⟩]⟩, ⟨idB, nameB, [⟨t, dB, sB⟩]⟩]).2
        (idA ++ "__" ++ t) = some ⟨idA, t⟩
  ∧ (executeMCPToolCall env w (idA ++ "__" ++ t) args
        (aggregateDeclarations
          [⟨idA, nameA, [⟨t, dA, sA⟩]⟩, ⟨idB, nameB, [⟨t, dB, sB⟩]⟩]).2).2
      = (callTool env w idA t (some args)).2
  ∧ (∀ pc ∈ (executeMCPToolCall env w (idA ++ "__" ++ t) args
        (aggregateDeclarations
          [⟨idA, nameA, [⟨t, dA, sA⟩]⟩, ⟨idB, nameB, [⟨t, dB, sB⟩]⟩]).2).2,
      pc.serverIdOf = idA) := by
  have hnames : idA ++ "__" ++ t ≠ idB ++ "__" ++ t := by
    intro h
    exact hne (string_append_cancel_right _ _ _ (string_append_cancel_right _ _ _ h))
  have hagg : (aggregateDeclarations
      [⟨idA, nameA, [⟨t, dA, sA⟩]⟩, ⟨idB, nameB, [⟨t, dB, sB⟩]⟩]).2
      = [(idA ++ "__" ++ t, { serverId := idA, toolName := t }),
         (idB ++ "__" ++ t, { serverId := idB, toolName := t })] := by
    simp [aggregateDeclarations, aggregateGo, aggToolsGo,
      convertMCPToolToFunctionDeclaration, mapSet, hnames]
  have hmget : mapGet (aggregateDeclarations
      [⟨idA, nameA, [⟨t, dA, sA⟩]⟩, ⟨idB, nameB, [⟨t, dB, sB⟩]⟩]).2
      (idA ++ "__" ++ t) = some { serverId := idA, toolName := t } := by
    rw [hagg]
    simp [mapGet]
  have hexec : (executeMCPToolCall env w (idA ++ "__" ++ t) args
      (aggregateDeclarations
        [⟨idA, nameA, [⟨t, dA, sA⟩]⟩, ⟨idB, nameB, [⟨t, dB, sB⟩]⟩]).2).2
      = (callTool env w idA t (some args)).2 := by
    simp only [executeMCPToolCall, hmget]
    by_cases hs : (callTool env w idA t (some args)).1.success <;> simp [hs]
  refine ⟨?_, hnames, hmget, hexec, ?_⟩
  · simp [aggregateDeclarations, aggregateGo, aggToolsGo,
      convertMCPToolToFunctionDeclaration]
  · intro pc hpc
    rw [hexec] at hpc
    exact callTool_log_serverId env w idA t (some args) pc hpc

/-- Witness for C5 at a concrete input: `a__get_time` resolves to server
`a`'s bare tool `get_time` even though server `b` exposes a tool of the
same bare name. -/
theorem C5_namespaced_routing_witness :
    mapGet (aggregateDeclarations
        [⟨"a", "A", [⟨"get_time", none, none⟩]⟩, ⟨"b", "B", [⟨"get_time", none, none⟩]⟩]).2
        ("a" ++ "__" ++ "get_time") = some { serverId := "a", toolName := "get_time" } :=
  (C5_namespaced_routing baseEnv emptyWorld "a" "b" "A" "B" "get_time" none none none none
      (Json.obj []) (by decide)).2.2.1

/-- Rebuilding every tool from its own fields is the identity. -/
theorem toolsMap_eta (l : List MCPTool) :
    (l.map fun t => (⟨t.name, t.description, t.inputSchema⟩ : MCPTool)) = l := by
  induction l with
  | nil => rfl
  | cons t rest ih => simp [ih]

/-- Behaviour of `listTools` on a connected entry: it performs exactly one
protocol call and returns the session's tools or its error. -/
theorem listTools_connected (env : Env) (w : World) (sid : String) (mc : ManagedClient)
    (hm : mapGet w.clients sid = some mc) (hc : mc.status = ConnectionStatus.connected) :
    listTools env w sid = (match env.listToolsResult mc.sessionId with
      | Except.ok ts => ({ success := true, tools := some ts, error := none },
          [ProtocolCall.listToolsCall sid])
      | Except.error msg => ({ success := false, tools := none, error := some msg },
          [ProtocolCall.listToolsCall sid])) := by
  simp only [listTools, hm]
  rw [if_neg (by simp [hc])]
  rcases hr : env.listToolsResult mc.sessionId with msg | ts
  · simp
  · simp [toolsMap_eta]

/-- Characterization of the `getAllTools` recursion: its aggregate contains
exactly the connected entries whose `listTools` succeeded, and it only ever
queries connected entries. -/
theorem getAllToolsGo_spec (env : Env) (w : World) :
    ∀ cs : List (String × ManagedClient),
      (∀ p ∈ cs, mapGet w.clients p.1 = some p.2) →
      (∀ e : ServerTools, e ∈ (getAllToolsGo env w cs).1 ↔
        ∃ mc, (e.serverId, mc) ∈ cs ∧ mc.status = ConnectionStatus.connected
          ∧ e.serverName = mc.config.name
          ∧ env.listToolsResult mc.sessionId = Except.ok e.tools)
    ∧ (∀ pc ∈ (getAllToolsGo env w cs).2, ∃ sid mc, pc = ProtocolCall.listToolsCall sid
          ∧ mapGet w.clients sid = some mc ∧ mc.status = ConnectionStatus.connected) := by
  intro cs
  induction cs with
  | nil =>
      intro _
      constructor
      · intro e
        simp [getAllToolsGo]
      · intro pc hpc
        simp [getAllToolsGo] at hpc
  | cons p rest ih =>
      intro hcs
      obtain ⟨sid, mc⟩ := p
      have hm : mapGet w.clients sid = some mc := hcs (sid, mc) (List.mem_cons_self _ _)
      have hrest := ih (fun q hq => hcs q (List.mem_cons_of_mem _ hq))
      by_cases hc : mc.status = ConnectionStatus.connected
      · rcases hr : env.listToolsResult mc.sessionId with msg | ts
        · -- the head server's listTools throws: it is skipped
          have hlt : listTools env w sid
              = ({ success := false, tools := none, error := some msg },
                 [ProtocolCall.listToolsCall sid]) := by
            rw [listTools_connected env w sid mc hm hc, hr]
          have hgo : getAllToolsGo env w ((sid, mc) :: rest)
              = ((getAllToolsGo env w rest).1,
                 [ProtocolCall.listToolsCall sid] ++ (getAllToolsGo env w rest).2) := by
            simp [getAllToolsGo, hc, hlt]
          constructor
          · intro e
            rw [hgo]
            rw [hrest.1 e]
            constructor
            · rintro ⟨mc2, hmem, h1, h2, h3⟩
              exact ⟨mc2, List.mem_cons_of_mem _ hmem, h1, h2, h3⟩
            · rintro ⟨mc2, hmem, h1, h2, h3⟩
              rcases List.mem_cons.mp hmem with hh | hh
              · rw [Prod.mk.injEq] at hh
                obtain ⟨he, hmc⟩ := hh
                subst hmc
                rw [hr] at h3
                cases h3
              · exact ⟨mc2, hh, h1, h2, h3⟩
          · intro pc hpc
            rw [hgo] at hpc
            rcases List.mem_append.mp hpc with hh | hh
            · rw [List.mem_singleton] at hh
              exact ⟨sid, mc, hh, hm, hc⟩
            · exact hrest.2 pc hh
        · -- the head server's listTools succeeds: its entry is included
          have hlt : listTools env w sid
              = ({ success := true, tools := some ts, error := none },
                 [ProtocolCall.listToolsCall sid]) := by
            rw [listTools_connected env w sid mc hm hc, hr]
          have hgo : getAllToolsGo env w ((sid, mc) :: rest)
              = (⟨sid, mc.config.name, ts⟩ :: (getAllToolsGo env w rest).1,
                 [ProtocolCall.listToolsCall sid] ++ (getAllToolsGo env w rest).2) := by
            simp [getAllToolsGo, hc, hlt]
          constructor
          · intro e
            obtain ⟨es, en, et⟩ := e
            rw [hgo]
            constructor
            · intro hh
              rcases List.mem_cons.mp hh with hh | hh
              · rw [ServerTools.mk.injEq] at hh
                obtain ⟨h1, h2, h3⟩ := hh
                subst h1
                subst h2
                subst h3
                exact ⟨mc, List.mem_cons_self _ _, hc, rfl, hr⟩
              · rcases (hrest.1 ⟨es, en, et⟩).mp hh with ⟨mc2, hmem, h1, h2, h3⟩
                exact ⟨mc2, List.mem_cons_of_mem _ hmem, h1, h2, h3⟩
            · rintro ⟨mc2, hmem, h1, h2, h3⟩
              rcases List.mem_cons.mp hmem with hh | hh
              · rw [Prod.mk.injEq] at hh
                obtain ⟨he, hmc⟩ := hh
                subst hmc
                rw [hr] at h3
                simp only [Except.ok.injEq] at h3
                refine List.mem_cons.mpr (Or.inl ?_)
                rw [ServerTools.mk.injEq]
                exact ⟨he, h2, h3.symm⟩
              · exact List.mem_cons.mpr
                  (Or.inr ((hrest.1 ⟨es, en, et⟩).mpr ⟨mc2, hh, h1, h2, h3⟩))
          · intro pc hpc
            rw [hgo] at hpc
            rcases List.mem_append.mp hpc with hh | hh
            · rw [List.mem_singleton] at hh
              exact ⟨sid, mc, hh, hm, hc⟩
            · exact hrest.2 pc hh
      · -- head entry not connected: skipped without a query
        have hgo : getAllToolsGo env w ((sid, mc) :: rest) = getAllToolsGo env w rest := by
          simp [getAllToolsGo, hc]
        constructor
        · intro e
          rw [hgo]
          rw [hrest.1 e]
          constructor
          · rintro ⟨mc2, hmem, h1, h2, h3⟩
            exact ⟨mc2, List.mem_cons_of_mem _ hmem, h1, h2, h3⟩
          · rintro ⟨mc2, hmem, h1, h2, h3⟩
            rcases List.mem_cons.mp hmem with hh | hh
            · rw [Prod.mk.injEq] at hh
              obtain ⟨he, hmc⟩ := hh
              subst hmc
              exact absurd h1 hc
            · exact ⟨mc2, hh, h1, h2, h3⟩
        · intro pc hpc
          rw [hgo] at hpc
          exact hrest.2 pc hpc

/-- Claim C7: on a duplicate-free registry, the `getAllTools` aggregate
contains exactly one entry per `connected` server whose `listTools`
succeeded — a server whose list call errors is skipped while every other
connected server's tools remain in the aggregate — and every protocol call
performed is a `listTools` addressed to a connected entry (non-connected
entries are never queried). -/
theorem C7_aggregate_isolation (env : Env) (w : World)
    (wf : (w.clients.map Prod.fst).Nodup) :
    (∀ e : ServerTools, e ∈ (getAllTools env w).1 ↔
      ∃ mc, mapGet w.clients e.serverId = some mc
        ∧ mc.status = ConnectionStatus.connected
        ∧ e.serverName = mc.config.name
        ∧ env.listToolsResult mc.sessionId = Except.ok e.tools)
  ∧ (∀ pc ∈ (getAllTools env w).2, ∃ sid mc, pc = ProtocolCall.listToolsCall sid
        ∧ mapGet w.clients sid = some mc ∧ mc.status = ConnectionStatus.connected) := by
  have hcs : ∀ p ∈ w.clients, mapGet w.clients p.1 = some p.2 := by
    intro p hp
    exact mapGet_of_mem_nodup _ _ _ wf hp
  have h := getAllToolsGo_spec env w w.clients hcs
  constructor
  · intro e
    rw [show (getAllTools env w) = getAllToolsGo env w w.clients from rfl]
    rw [h.1 e]
    constructor
    · rintro ⟨mc, hmem, h1, h2, h3⟩
      exact ⟨mc, mapGet_of_mem_nodup _ _ _ wf hmem, h1, h2, h3⟩
    · rintro ⟨mc, hmem, h1, h2, h3⟩
      exact ⟨mc, mem_of_mapGet _ _ _ hmem, h1, h2, h3⟩
  · intro pc hpc
    exact h.2 pc hpc

/-- Witness for C7 at a concrete input: servers `a` and `b` are both
connected, `b`'s `listTools` throws, yet server `a`'s tools are in the
aggregate. -/
theorem C7_aggregate_isolation_witness :
    (⟨"a", "srv", [{ name := "t1", description := none, inputSchema := none }]⟩ : ServerTools)
      ∈ (getAllTools envSplit wTwo).1 := by
  refine ((C7_aggregate_isolation envSplit wTwo (by decide)).1 _).mpr ?_
  exact ⟨{ sessionId := 0, config := cfgA, status := ConnectionStatus.connected, error := none },
    by decide, rfl, rfl, rfl⟩

/-- Structural account of one `fcLoop` invocation: it appends one round log
per model round-trip performed, at most `fuel` many and at least one when
fuel remains, and the final record list is the accumulator followed by each
appended round's records in order. -/
theorem fcLoop_spec (env : Env) (w : World) (gen : List Content → ModelResponse)
    (tm : List (String × ToolRef)) (snm : List (String × String)) :
    ∀ (fuel : Nat) (contents : List Content) (acc : List ToolCallRecord)
      (logs : List RoundLog),
      ∃ newLogs : List RoundLog,
        (fcLoop env w gen tm snm fuel contents acc logs).rounds = logs ++ newLogs
      ∧ (fcLoop env w gen tm snm fuel contents acc logs).toolCalls
          = acc ++ (newLogs.map fun lg => roundRecords env w tm snm lg.response).flatten
      ∧ newLogs.length ≤ fuel
      ∧ (fuel ≠ 0 → newLogs ≠ []) := by
  intro fuel
  induction fuel with
  | zero =>
      intro contents acc logs
      exact ⟨[], by simp [fcLoop], by simp [fcLoop], by simp, fun h => absurd rfl h⟩
  | succ fuel ih =>
      intro contents acc logs
      rcases hr : (gen contents).functionCalls with _ | calls
      · refine ⟨[⟨contents, gen contents, []⟩], ?_, ?_, by simp, by simp⟩
        · simp [fcLoop, hr]
        · simp [fcLoop, hr, roundRecords]
      · by_cases he : calls.isEmpty
        · refine ⟨[⟨contents, gen contents, []⟩], ?_, ?_, by simp, by simp⟩
          · simp [fcLoop, hr, he]
          · simp [fcLoop, hr, he, roundRecords]
        · obtain ⟨nl, h1, h2, h3, h4⟩ := ih
            (contents ++
              [⟨"model", calls.map fun c => MsgPart.functionCallPart c.name c.args⟩,
               ⟨"user", (processCalls env w tm snm calls).2⟩])
            (acc ++ (processCalls env w tm snm calls).1)
            (logs ++ [⟨contents, gen contents, (processCalls env w tm snm calls).2⟩])
          have hstep : fcLoop env w gen tm snm (fuel + 1) contents acc logs
              = fcLoop env w gen tm snm fuel
                  (contents ++
                    [⟨"model", calls.map fun c => MsgPart.functionCallPart c.name c.args⟩,
                     ⟨"user", (processCalls env w tm snm calls).2⟩])
                  (acc ++ (processCalls env w tm snm calls).1)
                  (logs ++ [⟨contents, gen contents, (processCalls env w tm snm calls).2⟩]) := by
            simp [fcLoop, hr, he]
          refine ⟨⟨contents, gen contents, (processCalls env w tm snm calls).2⟩ :: nl,
            ?_, ?_, ?_, by simp⟩
          · rw [hstep, h1]
            simp
          · rw [hstep, h2]
            simp [roundRecords, hr, he]
          · simp only [List.length_cons]
            omega

/-- When the model requests calls on every round, the loop burns all its
fuel, one round-trip per unit, and ends with the initial empty text. -/
theorem fcLoop_exhaust (env : Env) (w : World) (gen : List Content → ModelResponse)
    (tm : List (String × ToolRef)) (snm : List (String × String))
    (hgen : ∀ c, ∃ calls, (gen c).functionCalls = some calls ∧ calls ≠ []) :
    ∀ (fuel : Nat) (contents : List Content) (acc : List ToolCallRecord)
      (logs : List RoundLog),
      (fcLoop env w gen tm snm fuel contents acc logs).finalText = ""
    ∧ (fcLoop env w gen tm snm fuel contents acc logs).rounds.length
        = logs.length + fuel := by
  intro fuel
  induction fuel with
  | zero =>
      intro contents acc logs
      exact ⟨rfl, by simp [fcLoop]⟩
  | succ fuel ih =>
      intro contents acc logs
      obtain ⟨calls, hr, hne⟩ := hgen contents
      have he : calls.isEmpty = false := by
        cases calls
        · exact absurd rfl hne
        · rfl
      have hstep : fcLoop env w gen tm snm (fuel + 1) contents acc logs
          = fcLoop env w gen tm snm fuel
              (contents ++
                [⟨"model", calls.map fun c => MsgPart.functionCallPart c.name c.args⟩,
                 ⟨"user", (processCalls env w tm snm calls).2⟩])
              (acc ++ (processCalls env w tm snm calls).1)
              (logs ++ [⟨contents, gen contents, (processCalls env w tm snm calls).2⟩]) := by
        simp [fcLoop, hr, he]
      rw [hstep]
      obtain ⟨h1, h2⟩ := ih _ _ _
      refine ⟨h1, ?_⟩
      rw [h2]
      simp only [List.length_append, List.length_cons, List.length_nil]
      omega

/-- Unfolding of the first round of a turn when the model requests a
nonempty batch of calls. -/
theorem fcLoop_first_round (env : Env) (w : World) (gen : List Content → ModelResponse)
    (tm : List (String × ToolRef)) (snm : List (String × String)) (fuel : Nat)
    (contents : List Content) (calls : List FunctionCall)
    (hr : (gen contents).functionCalls = some calls) (hne : calls.isEmpty = false) :
    fcLoop env w gen tm snm (fuel + 1) contents [] []
      = fcLoop env w gen tm snm fuel
          (contents ++
            [⟨"model", calls.map fun c => MsgPart.functionCallPart c.name c.args⟩,
             ⟨"user", (processCalls env w tm snm calls).2⟩])
          (processCalls env w tm snm calls).1
          [⟨contents, gen contents, (processCalls env w tm snm calls).2⟩] := by
  simp [fcLoop, hr, hne]

/-- Claim C6: the function-calling loop of a chat turn performs at most 5
model round-trips (one `rounds` entry is logged per `generateContent`
call), for every conversation and every model behaviour. -/
theorem C6_round_cap (env : Env) (w : World) (gen : List Content → ModelResponse)
    (contents : List Content) :
    (runChatTurn env w gen contents).rounds.length ≤ 5 := by
  obtain ⟨nl, h1, _, h3, _⟩ :=
    fcLoop_spec env w gen (toolMapOf env w) (serverNameMapOf env w) 5 contents [] []
  unfold runChatTurn
  rw [h1]
  simpa using h3

/-- Claim C9: every chat turn yields a result carrying the final text and
the ordered tool-call trace — the record list equals the concatenation of
each performed round's records in round order — and when the model requests
calls on every round the loop exhausts its 5-round cap and returns the
(empty) available text with the trace rather than failing. -/
theorem C9_turn_shape (env : Env) (w : World) (gen : List Content → ModelResponse)
    (contents : List Content) :
    (runChatTurn env w gen contents).toolCalls
      = ((runChatTurn env w gen contents).rounds.map fun lg =>
          roundRecords env w (toolMapOf env w) (serverNameMapOf env w) lg.response).flatten
  ∧ ((∀ c, ∃ calls, (gen c).functionCalls = some calls ∧ calls ≠ []) →
      (runChatTurn env w gen contents).finalText = ""
      ∧ (runChatTurn env w gen contents).rounds.length = 5) := by
  constructor
  · obtain ⟨nl, h1, h2, _, _⟩ :=
      fcLoop_spec env w gen (toolMapOf env w) (serverNameMapOf env w) 5 contents [] []
    unfold runChatTurn
    rw [h1, h2]
    simp
  · intro hgen
    obtain ⟨h1, h2⟩ :=
      fcLoop_exhaust env w gen (toolMapOf env w) (serverNameMapOf env w) hgen 5 contents [] []
    exact ⟨h1, by simpa using h2⟩

/-- Witness for C9 at a concrete input: the always-requesting model burns
exactly 5 rounds and the turn still returns (empty text, trace). -/
theorem C9_turn_shape_witness :
    (runChatTurn baseEnv emptyWorld genU []).finalText = ""
  ∧ (runChatTurn baseEnv emptyWorld genU []).rounds.length = 5 :=
  (C9_turn_shape baseEnv emptyWorld genU []).2
    (fun _ => ⟨[{ name := some "zzz", args := some (Json.obj []) }], rfl, by simp⟩)

/-- Claim C8: a requested function name that resolves to no aggregated tool
produces the per-call error object `{ error: "Unknown tool: <name>" }`
without any protocol invocation; the loop feeds that error back to the
model as the call's function response and continues the turn with another
round-trip instead of aborting. -/
theorem C8_unknown_function (env : Env) (w : World) (gen : List Content → ModelResponse)
    (contents : List Content) (nm : String) (fargs : Json) (txt : Option String)
    (hmap : mapGet (toolMapOf env w) nm = none)
    (hgen : gen contents
      = { functionCalls := some [{ name := some nm, args := some fargs }], text := txt }) :
    executeMCPToolCall env w nm fargs (toolMapOf env w)
      = (Json.obj [("error", Json.str ("Unknown tool: " ++ nm))], [])
  ∧ (runChatTurn env w gen contents).rounds.head?
      = some ⟨contents, gen contents,
          [MsgPart.functionResponsePart (some nm)
            (Json.obj [("result", Json.str (Json.stringify
              (Json.obj [("error", Json.str ("Unknown tool: " ++ nm))])))])]⟩
  ∧ 2 ≤ (runChatTurn env w gen contents).rounds.length := by
  have hexec : executeMCPToolCall env w nm fargs (toolMapOf env w)
      = (Json.obj [("error", Json.str ("Unknown tool: " ++ nm))], []) := by
    simp [executeMCPToolCall, hmap]
  have hproc : processCalls env w (toolMapOf env w) (serverNameMapOf env w)
      [{ name := some nm, args := some fargs }]
      = ([], [MsgPart.functionResponsePart (some nm)
          (Json.obj [("result", Json.str (Json.stringify
            (Json.obj [("error", Json.str ("Unknown tool: " ++ nm))])))])]) := by
    simp [processCalls, hexec, hmap]
  have hfirst := fcLoop_first_round env w gen (toolMapOf env w) (serverNameMapOf env w) 4
    contents [{ name := some nm, args := some fargs }] (by rw [hgen]) rfl
  rw [hproc] at hfirst
  simp only [List.map_cons, List.map_nil] at hfirst
  obtain ⟨nl, h1, _, _, h4⟩ :=
    fcLoop_spec env w gen (toolMapOf env w) (serverNameMapOf env w) 4
      (contents ++
        [⟨"model", [MsgPart.functionCallPart (some nm) (some fargs)]⟩,
         ⟨"user", [MsgPart.functionResponsePart (some nm)
           (Json.obj [("result", Json.str (Json.stringify
             (Json.obj [("error", Json.str ("Unknown tool: " ++ nm))])))])]⟩])
      []
      [⟨contents, gen contents,
        [MsgPart.functionResponsePart (some nm)
          (Json.obj [("result", Json.str (Json.stringify
            (Json.obj [("error", Json.str ("Unknown tool: " ++ nm))])))])]⟩]
  have hrounds : (runChatTurn env w gen contents).rounds
      = ⟨contents, gen contents,
          [MsgPart.functionResponsePart (some nm)
            (Json.obj [("result", Json.str (Json.stringify
              (Json.obj [("error", Json.str ("Unknown tool: " ++ nm))])))])]⟩ :: nl := by
    unfold runChatTurn
    rw [hfirst, h1]
    simp
  refine ⟨hexec, ?_, ?_⟩
  · rw [hrounds]
    rfl
  · rw [hrounds]
    have hne : nl ≠ [] := h4 (by omega)
    have hpos : 0 < nl.length := List.length_pos.mpr hne
    simp only [List.length_cons]
    omega

/-- Witness for C8 at a concrete input: the empty registry aggregates no
tools, so `zzz` is unknown; the turn still performs a second round-trip. -/
theorem C8_unknown_function_witness :
    2 ≤ (runChatTurn baseEnv emptyWorld genU []).rounds.length :=
  (C8_unknown_function baseEnv emptyWorld genU [] "zzz" (Json.obj []) none rfl rfl).2.2

/-- Claim C10: `importConfig` rejects unparsable input and parsed non-array
values, leaving the configured set unchanged, and accepts any parsed array
— replacing the whole set with the array's elements (arbitrary records,
no shape validation), each `disconnected` — so importing an exported
configuration reproduces the same config records, all `disconnected`.
The `JSON.parse` / `JSON.stringify` string boundary is abstracted as the
parse outcome (`Option Json`). -/
theorem C10_import_export (servers others : List ServerEntry) (xs : List Json) (j : Json)
    (hj : Json.isArr j = false) :
    importConfig none servers = (false, servers)
  ∧ importConfig (some j) servers = (false, servers)
  ∧ importConfig (some (Json.arr xs)) servers
      = (true, xs.map fun c => { config := c, status := ConnectionStatus.disconnected })
  ∧ importConfig (some (exportConfig servers)) others
      = (true, servers.map fun s =>
          ({ config := s.config, status := ConnectionStatus.disconnected } : ServerEntry)) := by
  refine ⟨rfl, ?_, rfl, ?_⟩
  · cases j <;> simp_all [importConfig, Json.isArr]
  · simp [importConfig, exportConfig, List.map_map, Function.comp]

/-- Witness for C10 at a concrete input: a parsed non-array value is
rejected and leaves the set unchanged. -/
theorem C10_import_export_witness :
    importConfig (some (Json.num 3)) [] = (false, []) :=
  (C10_import_export [] [] [] (Json.num 3) rfl).2.1

end Mcp
